import Mathlib

/-!
Verification development for the medpathways explorer crawl engine
(`src/medex/explorer.py`).  The Python source is embedded shallowly:

* URLs are strings; `urlparse`/`urljoin` model the behaviour of the
  standard-library functions for the URL shapes this program handles;
* Python `set`s are modelled as duplicate-free insertion-ordered lists,
  with `set.pop` (an implementation-defined choice) parameterised by a
  scheduler picking which element is removed;
* Python `dict`s (insertion ordered) are association lists;
* numeric scores (floats in the source) are modelled as rationals;
* the external collaborators (web fetcher, LLM classifier) are an
  explicit environment; the classifier outcome is a tagged value
  mirroring the observable cases in `Explorer.analyze_page`: a JSON
  parse into the expected dict shape, a JSON parse into a dict that may
  lack expected keys, a `json.JSONDecodeError`, or an exception;
* the one uncaught exception path of `explore` — a parsed classifier
  dict without the keys the loop reads (`KeyError` at the keep test or
  inside `save_page`) — is modelled by a `crashed` flag that aborts the
  loop before the ranking document is produced.
-/

namespace Medex

/-- `a.startswith(b)` on Python strings (executable model of the string
method; all string helpers below recurse structurally so that concrete
runs evaluate inside the kernel). -/
def pyStartsWith (s p : String) : Bool :=
  p.data.isPrefixOf s.data

/-- `a.endswith(b)` on Python strings. -/
def pyEndsWith (s p : String) : Bool :=
  p.data.reverse.isPrefixOf s.data.reverse

/-- Worker for `str.split(sep)` with a non-empty separator: scan left to
right, cutting at each non-overlapping occurrence of `sep`.  The fuel is
the input length, which the scan never exhausts since every step consumes
at least one character. -/
def splitAux (sep : List Char) : Nat → List Char → List Char → List (List Char)
  | _, acc, [] => [acc.reverse]
  | 0, acc, l => [acc.reverse ++ l]
  | fuel + 1, acc, c :: rest =>
    if sep.isPrefixOf (c :: rest) then
      acc.reverse :: splitAux sep fuel [] ((c :: rest).drop sep.length)
    else
      splitAux sep fuel (c :: acc) rest

/-- `s.split(sep)` on Python strings (non-empty `sep`). -/
def pySplit (s sep : String) : List String :=
  (splitAux sep.data s.data.length [] s.data).map List.asString

/-- Worker for `str.replace(pat, repl)` with a non-empty pattern:
left-to-right, non-overlapping. -/
def replaceAux (pat repl : List Char) : Nat → List Char → List Char
  | _, [] => []
  | 0, l => l
  | fuel + 1, c :: rest =>
    if pat.isPrefixOf (c :: rest) then
      repl ++ replaceAux pat repl fuel ((c :: rest).drop pat.length)
    else
      c :: replaceAux pat repl fuel rest

/-- `s.replace(pat, repl)` on Python strings (non-empty `pat`). -/
def pyReplace (s pat repl : String) : String :=
  (replaceAux pat.data repl.data s.data.length s.data).asString

/-- `s.strip()` on Python strings. -/
def pyTrim (s : String) : String :=
  (((s.data.dropWhile Char.isWhitespace).reverse.dropWhile Char.isWhitespace).reverse).asString

/-- `s[:n]` on Python strings. -/
def pyTake (s : String) (n : Nat) : String :=
  (s.data.take n).asString

/-- `s.lower()` on Python strings (ASCII case folding). -/
def pyLower (s : String) : String :=
  (s.data.map Char.toLower).asString

/-- `'/'.join(pieces)`. -/
def joinSlash (pieces : List String) : String :=
  (List.intercalate ['/'] (pieces.map String.data)).asString

/-- Python's substring test `part in hay`. -/
def containsSub (hay part : String) : Bool :=
  hay.data.tails.any fun t => part.data.isPrefixOf t

/-- The relevant components of a parsed URL (`urllib.parse.urlparse`):
the network location and the path. -/
structure ParsedUrl where
  netloc : String
  path : String
deriving Repr, DecidableEq

/-- Characters allowed in a URL scheme (`urllib.parse.scheme_chars`). -/
def schemeChar (c : Char) : Bool :=
  c.isAlpha || c.isDigit || c == '+' || c == '-' || c == '.'

/-- The scheme of a URL: the characters before the first `:` when they are
all scheme characters, otherwise empty. -/
def schemeOf (s : String) : String :=
  match s.data.findIdx? (· == ':') with
  | some i => if 0 < i ∧ (s.data.take i).all schemeChar then (s.data.take i).asString else ""
  | none => ""

/-- Whether a URL carries an explicit scheme. -/
def hasScheme (s : String) : Bool := schemeOf s ≠ ""

/-- Drop the scheme and the following `:` from a URL, when present. -/
def splitScheme (l : List Char) : List Char :=
  match l.findIdx? (· == ':') with
  | some i => if 0 < i ∧ (l.take i).all schemeChar then l.drop (i + 1) else l
  | none => l

/-- Model of `urllib.parse.urlparse` restricted to the fields the program
reads (`netloc` and `path`).  Fragment and query parts are stripped, the
scheme is removed, and a `//` introduces the network location, which runs
until the next `/`.  The one situation in which the CPython function raises
(`ValueError` on a netloc with unbalanced square brackets) is modelled by
`none`; every other input parses. -/
def urlparse (s : String) : Option ParsedUrl :=
  let noFrag := s.data.takeWhile (· != '#')
  let noQuery := noFrag.takeWhile (· != '?')
  let rest := splitScheme noQuery
  if rest.take 2 = ['/', '/'] then
    let after := rest.drop 2
    let netloc := after.takeWhile (· != '/')
    let path := after.dropWhile (· != '/')
    if (netloc.contains '[' ∧ ¬ netloc.contains ']') ∨
       (netloc.contains ']' ∧ ¬ netloc.contains '[') then none
    else some ⟨netloc.asString, path.asString⟩
  else
    some ⟨"", rest.asString⟩

/-- The directory part of a path, up to and including the final `/`, or
`/` for a path with no slash (used when resolving a relative reference
against a base URL). -/
def dirOf (path : String) : String :=
  if path.data.contains '/' then
    ((path.data.reverse.dropWhile (· != '/')).reverse).asString
  else "/"

/-- Model of `urllib.parse.urljoin` for the reference shapes produced by
the markdown link extraction in `analyze_page`: absolute URLs are returned
unchanged, network-relative references inherit the base scheme,
absolute-path references inherit scheme and netloc, and plain relative
references are appended to the base directory.  Dot segments are not
resolved (no such reference is produced by the extraction). -/
def urljoin (base rel : String) : String :=
  if rel = "" then base
  else if hasScheme rel then rel
  else
    match urlparse base with
    | none => rel
    | some b =>
      if pyStartsWith rel "//" then schemeOf base ++ ":" ++ rel
      else if pyStartsWith rel "/" then schemeOf base ++ "://" ++ b.netloc ++ rel
      else schemeOf base ++ "://" ++ b.netloc ++ dirOf b.path ++ rel

/-- The explorer object (`Explorer.__init__`): the school label, the
start URL, the base domain computed from the start URL at construction,
and the page cap (the source fixes `MAX_PAGES = 500`; it is kept as a
field so the cap theorems cover every value). -/
structure Explorer where
  school : String
  start_url : String
  base_domain : String
  MAX_PAGES : Nat
deriving Repr

/-- `Explorer(school, start_url)`: `base_domain = urlparse(start_url).netloc`
and `MAX_PAGES = 500`; `none` when `urlparse` raises. -/
def Explorer.init (school start_url : String) : Option Explorer :=
  (urlparse start_url).map fun p =>
    { school := school, start_url := start_url, base_domain := p.netloc, MAX_PAGES := 500 }

/-- `Explorer.is_valid_url`: the candidate must parse, have exactly the
base domain as netloc, and a path extending the start URL's path; any
parse failure is caught and yields `False`. -/
def is_valid_url (e : Explorer) (url : String) : Bool :=
  match urlparse url, urlparse e.start_url with
  | some parsed, some start_parsed =>
    if e.base_domain != parsed.netloc then false
    else if !(pyStartsWith parsed.path start_parsed.path) then false
    else true
  | _, _ => false

/-- Second capture group of the pattern `\[(.*?)\]\((.*?)\)`: lazily take
characters (none of them a newline) up to the first `)`. -/
def tryGroup2 : List Char → Option (List Char × List Char)
  | [] => none
  | c :: rest =>
    if c = ')' then some ([], rest)
    else if c = '\n' then none
    else
      match tryGroup2 rest with
      | some (g, r) => some (c :: g, r)
      | none => none

/-- First capture group of `\[(.*?)\]\((.*?)\)` (the part after the
opening `[`): lazily extend the group until a `](` whose remainder
completes with `tryGroup2`, backtracking past a `](` that does not.
Backtracking past a failed `](` absorbs both `]` and `(` into the group
and resumes scanning after them, which is what the second branch does
directly (the `(` is an ordinary non-newline character for the lazy
group, so resuming at `(` and resuming after it coincide). -/
def tryGroup1 : List Char → Option (List Char × List Char × List Char)
  | [] => none
  | ']' :: '(' :: rest =>
    (match tryGroup2 rest with
     | some (g2, r) => some ([], g2, r)
     | none =>
       match tryGroup1 rest with
       | some (g1, g2, r) => some (']' :: '(' :: g1, g2, r)
       | none => none)
  | c :: rest =>
    if c = '\n' then none
    else
      match tryGroup1 rest with
      | some (g1, g2, r) => some (c :: g1, g2, r)
      | none => none

/-- `tryGroup2` consumes at least the closing parenthesis. -/
theorem tryGroup2_length_lt :
    ∀ {l g r}, tryGroup2 l = some (g, r) → r.length < l.length := by
  intro l
  induction l with
  | nil => intro g r h; simp [tryGroup2] at h
  | cons c rest ih =>
    intro g r h
    by_cases hc : c = ')'
    · simp [tryGroup2, hc] at h
      obtain ⟨_, h2⟩ := h
      subst h2
      simp
    · by_cases hn : c = '\n'
      · simp [tryGroup2, hc, hn] at h
      · simp [tryGroup2, hc, hn] at h
        rcases hr : tryGroup2 rest with _ | ⟨g0, r0⟩
        · rw [hr] at h; simp at h
        · rw [hr] at h
          simp at h
          obtain ⟨_, h2⟩ := h
          subst h2
          exact Nat.lt_succ_of_lt (ih hr)

/-- `tryGroup1` consumes at least `](` and the closing parenthesis, so
the remainder it returns is strictly shorter than its input (this bounds
the fuel `findMdLinks` needs). -/
theorem tryGroup1_length_lt :
    ∀ {l g1 g2 r}, tryGroup1 l = some (g1, g2, r) → r.length < l.length := by
  intro l
  induction l using tryGroup1.induct with
  | case1 =>
    intro g1 g2 r h
    simp [tryGroup1] at h
  | case2 rest g r hr2 =>
    intro g1 g2 r' h
    simp only [tryGroup1, hr2, Option.some.injEq, Prod.mk.injEq] at h
    obtain ⟨h1, h2, h3⟩ := h
    subst h3
    have := tryGroup2_length_lt hr2
    simp only [List.length_cons]
    omega
  | case3 rest hr2 g1 g2 r hr1 ih =>
    intro g1' g2' r' h
    simp only [tryGroup1, hr2, hr1, Option.some.injEq, Prod.mk.injEq] at h
    obtain ⟨h1, h2, h3⟩ := h
    subst h3
    have := ih hr1
    simp only [List.length_cons] at this ⊢
    omega
  | case4 rest hr2 hr1 ih =>
    intro g1 g2 r h
    simp only [tryGroup1, hr2, hr1] at h
    exact Option.noConfusion h
  | case5 rest hnot =>
    intro g1 g2 r h
    rw [tryGroup1] at h <;> try exact hnot
    rw [if_pos rfl] at h
    exact Option.noConfusion h
  | case6 c rest hnot hn g1 g2 r hr1 ih =>
    intro g1' g2' r' h
    rw [tryGroup1] at h <;> try exact hnot
    rw [if_neg hn, hr1] at h
    simp only [Option.some.injEq, Prod.mk.injEq] at h
    obtain ⟨h1, h2, h3⟩ := h
    subst h3
    exact Nat.lt_succ_of_lt (ih hr1)
  | case7 c rest hnot hn hr1 ih =>
    intro g1 g2 r h
    rw [tryGroup1] at h <;> try exact hnot
    rw [if_neg hn, hr1] at h
    exact Option.noConfusion h

/-- Worker for the markdown scan.  Fuel equal to the input length always
suffices: each step recurses on a strictly shorter list (for the match
branch, by `tryGroup1_length_lt`), so the fuel never runs out before the
input is exhausted. -/
def findMdAux : Nat → List Char → List (String × String)
  | _, [] => []
  | 0, _ => []
  | fuel + 1, c :: rest =>
    if c = '[' then
      match tryGroup1 rest with
      | some (g1, g2, r) => (g1.asString, g2.asString) :: findMdAux fuel r
      | none => findMdAux fuel rest
    else findMdAux fuel rest

/-- Model of `re.findall(r'\[(.*?)\]\((.*?)\)', text)`: scan left to right
for non-overlapping lazy matches of the markdown link pattern, returning
the pairs of capture groups. -/
def findMdLinks (l : List Char) : List (String × String) :=
  findMdAux l.length l

/-- A recommended link in the structured (dict) shape used by
`analyze_page` and consumed by the enqueue filter in `explore`. -/
structure Link where
  url : String
  text : String
  type : String
  priority : ℚ
  source : String
  confidence : ℚ
deriving Repr, DecidableEq

/-- One entry of `recommended_links` as the enqueue loop in `explore`
discriminates it: a dict, a plain string, or any other JSON value
(which the `isinstance` chain silently ignores). -/
inductive RecLink where
  | structured (l : Link)
  | bare (s : String)
  | other
deriving Repr, DecidableEq

/-- The analysis dict produced by `analyze_page` (scores are rationals in
the model, floats in the source). -/
structure Analysis where
  importance_score : ℚ
  explorer_tags : List String
  abstract : String
  recommended_links : List RecLink
  related_topics : List String
deriving Repr, DecidableEq

/-- The zero assessment returned when `analyze_page` catches an exception. -/
def zero_assessment : Analysis :=
  { importance_score := 0, explorer_tags := [], abstract := "",
    recommended_links := [], related_topics := [] }

/-- `base_url = '/'.join(self.start_url.split('/')[:-1]) + '/'` in
`analyze_page`. -/
def base_url_of (start_url : String) : String :=
  joinSlash ((pySplit start_url "/").dropLast) ++ "/"

/-- The raw-link extraction in `analyze_page`: keep the markdown links
whose target ends in `.html`, strip `__` from the anchor text and trim it,
make the URL absolute against the base URL, and tag the result as a
navigation link of priority 0.8. -/
def extracted_links (start_url text : String) : List Link :=
  (findMdLinks text.data).filterMap fun p =>
    if pyEndsWith p.2 ".html" then
      some { url := urljoin (base_url_of start_url) p.2,
             text := pyTrim (pyReplace p.1 "__" ""),
             type := "navigation", priority := mkRat 8 10,
             source := "Navigation Menu", confidence := 1 }
    else none

/-- A classifier response that parsed as a JSON dict, field by field:
each expected key may be absent (`analyze_page` returns such a dict
as-is, only fixing up `recommended_links`).  A present
`importance_score` is assumed numeric. -/
structure AnalysisDict where
  importance_score : Option ℚ
  explorer_tags : Option (List String)
  abstract : Option String
  recommended_links : Option (List RecLink)
  related_topics : Option (List String)
deriving Repr, DecidableEq

/-- The observable outcomes of the classifier call in `analyze_page`:
`json.loads(str(response))` succeeds and yields the expected dict shape
(`parsed`), succeeds but yields a dict that may lack expected keys
(`parsedDict` — `parsed a` is the convenience case equal to
`parsedDict` of the corresponding total dict, see
`analyze_page_parsed_eq_parsedDict`), raises `json.JSONDecodeError`
(`unparsable`, carrying `str(response)`), or some step of the analysis
raises (`err`). -/
inductive ClassifyOutcome where
  | parsed (a : Analysis)
  | parsedDict (d : AnalysisDict)
  | unparsable (raw : String)
  | err
deriving Repr

/-- The dict returned by `analyze_page` for the outcome, with every field
read through the defaults the crash-free loop body would see
(`.get`-style).  For the `parsedDict` case the defaults are observable
only where the source never reads the raw key: a missing
`importance_score`, or a missing `explorer_tags`/`abstract` on a page
clearing the keep threshold, raises an uncaught `KeyError` in `explore`
or `save_page` instead — that path is `classifyRaises` below, checked by
the crawl loop before this value is acted on, so on every non-raising
iteration these defaults coincide with the raw dict entries the source
reads. -/
def analyze_page (e : Explorer) (text : String) (out : ClassifyOutcome) : Analysis :=
  match out with
  | .parsed a =>
    { a with recommended_links :=
        a.recommended_links ++ (extracted_links e.start_url text).map RecLink.structured }
  | .parsedDict d =>
    { importance_score := d.importance_score.getD 0,
      explorer_tags := d.explorer_tags.getD [],
      abstract := d.abstract.getD "",
      recommended_links :=
        d.recommended_links.getD [] ++ (extracted_links e.start_url text).map RecLink.structured,
      related_topics := d.related_topics.getD [] }
  | .unparsable raw =>
    { importance_score := mkRat 8 10,
      explorer_tags := ["admissions", "requirements"],
      abstract := pyTake raw 100,
      recommended_links := (extracted_links e.start_url text).map RecLink.structured,
      related_topics := [] }
  | .err => zero_assessment

/-- Whether the dict that `analyze_page` returns for this outcome makes
`explore` raise an uncaught `KeyError`: `analysis["importance_score"]`
at the keep test (explorer.py:373) when the key is absent, or
`analysis["explorer_tags"]` / `analysis["abstract"]` inside `save_page`
(lines 248–249) when the score is present and clears the threshold but
one of those keys is absent.  Only a parsed-JSON dict can raise: the
decode-error and exception branches of `analyze_page` build dicts with
every key, and a score not clearing the threshold never reaches
`save_page` (the remaining reads go through `.get`). -/
def classifyRaises : ClassifyOutcome → Bool
  | .parsedDict d =>
    match d.importance_score with
    | none => true
    | some q =>
      decide (q > mkRat 3 10) && (d.explorer_tags.isNone || d.abstract.isNone)
  | _ => false

/-- One fetched document: its text plus the `title` and `links` metadata
the reader attaches. -/
structure Page where
  text : String
  title : String
  links : List String
deriving Repr, DecidableEq

/-- The external collaborators of the crawl loop: the web fetcher
(`AsyncWebPageReader.aload_data`, an empty list on failure since
`fail_on_error=False`) and the classifier (query engine plus JSON parse),
keyed by the URL being processed. -/
structure Env where
  fetch : String → List Page
  classify : String → ClassifyOutcome

/-- `set.add`: a Python set is modelled as a duplicate-free
insertion-ordered list; adding an element already present is a no-op. -/
def setAdd (l : List String) (u : String) : List String :=
  if u ∈ l then l else l ++ [u]

/-- `list(set(xs))`: deduplication; the iteration order of a Python set is
implementation-defined, the model fixes first-occurrence order (no claim
depends on this order). -/
def pySetList (xs : List String) : List String :=
  xs.foldl setAdd []

/-- `set.pop()`: removes and returns an implementation-defined element.
The choice is a parameter `k`; every Python execution corresponds to some
choice sequence.  (Popping an empty set cannot occur under the loop
guard.) -/
def setPop (k : Nat) (l : List String) : String × List String :=
  match l with
  | [] => ("", [])
  | x :: xs => ((x :: xs).getD (k % (x :: xs).length) x, (x :: xs).eraseIdx (k % (x :: xs).length))

/-- Python `dict` assignment on an insertion-ordered association list:
update in place when the key exists, else append. -/
def dictInsert {α : Type} (l : List (String × α)) (k : String) (v : α) : List (String × α) :=
  if l.any (fun p => p.1 == k) then
    l.map (fun p => if p.1 == k then (k, v) else p)
  else l ++ [(k, v)]

/-- The per-URL summary stored in `self.page_importance[url]`. -/
structure PIData where
  score : ℚ
  tags : List String
  related_topics : List String
deriving Repr, DecidableEq

/-- The per-page JSON artifact written by `save_page` (keyed by the URL,
which determines the md5 file name). -/
structure Artifact where
  explorer_tags : List String
  abstract : String
  content : String
  related_topics : List String
  title : String
  links : List String
  importance_score : ℚ
  recommended_links : List RecLink
deriving Repr, DecidableEq

/-- The mutable state of one `explore()` run.  `pending` is
`urls_to_visit`, `visited` is `visited_urls`, `page_importance` and
`artifacts` are the outputs of `save_page`; `popped` and `assessed` are
instrumentation recording every URL returned by `set.pop` and every URL
that reached fetch-and-classify (they influence nothing); `crashed`
records that an uncaught `KeyError` (see `classifyRaises`) aborted the
run. -/
structure ExploreState where
  pending : List String
  visited : List String
  page_importance : List (String × PIData)
  artifacts : List (String × Artifact)
  popped : List String
  assessed : List String
  crashed : Bool
deriving Repr

/-- `Explorer.save_page`: write the page artifact and record the
importance summary. -/
def save_page (s : ExploreState) (url : String) (doc : Page) (analysis : Analysis) :
    ExploreState :=
  { s with
    artifacts := dictInsert s.artifacts url
      { explorer_tags := analysis.explorer_tags, abstract := analysis.abstract,
        content := doc.text, related_topics := analysis.related_topics,
        title := doc.title, links := doc.links,
        importance_score := analysis.importance_score,
        recommended_links := analysis.recommended_links },
    page_importance := dictInsert s.page_importance url
      { score := analysis.importance_score, tags := analysis.explorer_tags,
        related_topics := analysis.related_topics } }

/-- The enqueue filter of `explore` (lines 377–388): a dict link needs a
non-empty URL, priority strictly above 0.3, a passing scope check and a
navigation/content/application type; a plain string link only needs the
scope check; anything else is dropped. -/
def link_allowed (e : Explorer) : RecLink → Option String
  | .structured l =>
    if l.url ≠ "" ∧ l.priority > mkRat 3 10 ∧ is_valid_url e l.url = true ∧
       l.type ∈ ["navigation", "content", "application"] then some l.url else none
  | .bare u => if is_valid_url e u then some u else none
  | .other => none

/-- Fold of the enqueue filter over `recommended_links`, adding each
accepted URL to the pending set. -/
def enqueue_links (e : Explorer) (pending : List String) (links : List RecLink) :
    List String :=
  links.foldl (fun p link =>
    match link_allowed e link with
    | some u => setAdd p u
    | none => p) pending

/-- The body of the crawl loop after a URL has been popped, found
unvisited and marked visited (lines 343–399 of `explore`): fetch the
documents (an empty result is a fetch failure and skips the page), merge
the link metadata, classify, and - when the importance score clears the
0.3 threshold - save the page and enqueue its filtered recommended
links. -/
def visitUrl (e : Explorer) (env : Env) (s : ExploreState) (current_url : String) :
    ExploreState :=
  match env.fetch current_url with
  | [] => s
  | doc :: docs =>
    let all_links := pySetList (((doc :: docs).map Page.links).flatten)
    let document : Page := { doc with links := all_links }
    let s := { s with assessed := s.assessed ++ [current_url] }
    let analysis := analyze_page e document.text (env.classify current_url)
    if analysis.importance_score > mkRat 3 10 then
      let s1 := save_page s current_url document analysis
      { s1 with pending := enqueue_links e s1.pending analysis.recommended_links }
    else s

/-- The `while urls_to_visit and len(visited_urls) < self.MAX_PAGES` loop
of `explore`, with explicit fuel (the source loop terminates; every claim
is stated for an arbitrary number of executed iterations).  An iteration
on a fetched page whose classifier dict makes the loop body raise
(`classifyRaises`) halts the loop with the `crashed` flag set, at the
state the exception leaves behind: the URL popped, marked visited and
classified, nothing kept, nothing enqueued; every non-raising iteration
runs the crash-free body `visitUrl`. -/
def exploreLoop (e : Explorer) (env : Env) (sched : Nat → Nat) :
    Nat → ExploreState → ExploreState
  | 0, s => s
  | fuel + 1, s =>
    if s.pending = [] ∨ ¬ s.visited.length < e.MAX_PAGES then s
    else
      let pop := setPop (sched s.popped.length) s.pending
      let current_url := pop.1
      let s := { s with pending := pop.2, popped := s.popped ++ [current_url] }
      if current_url ∈ s.visited then
        exploreLoop e env sched fuel s
      else
        let s := { s with visited := s.visited ++ [current_url] }
        if env.fetch current_url ≠ [] ∧ classifyRaises (env.classify current_url) = true then
          { s with assessed := s.assessed ++ [current_url], crashed := true }
        else
          exploreLoop e env sched fuel (visitUrl e env s current_url)

/-- The initial crawl state: the frontier seeded with the start URL. -/
def initState (e : Explorer) : ExploreState :=
  { pending := [e.start_url], visited := [], page_importance := [],
    artifacts := [], popped := [], assessed := [], crashed := false }

/-- One entry of the final ranking document. -/
structure RankingEntry where
  url : String
  explorer_tags : List String
  importance_score : ℚ
  related_topics : List String
  related_pages : List String
  topic_clusters : List String
deriving Repr, DecidableEq

/-- The ranking document: the sorted entries and the metadata block. -/
structure RankingDoc where
  ranking : List RankingEntry
  total_pages : Nat
  base_domain : String
  topic_overview : List String
deriving Repr, DecidableEq

/-- The entry constructor inside `save_importance_ranking` (the
`semantic_context` fields cross-reference every kept page, so the whole
accumulator is a parameter). -/
def mkRankingEntry (page_importance : List (String × PIData)) (p : String × PIData) :
    RankingEntry :=
  { url := p.1, explorer_tags := p.2.tags, importance_score := p.2.score,
    related_topics := p.2.related_topics,
    related_pages := p.2.related_topics.filter (fun topic =>
      ["admission", "requirement", "curriculum"].any
        (fun part => containsSub (pyLower topic) part)),
    topic_clusters := pySetList ((page_importance.map (fun d => d.2.tags)).flatten) }

/-- `Explorer.save_importance_ranking`: sort the accumulated summaries by
score, descending and stable (Python `sorted(..., reverse=True)` is a
stable sort; the model uses stable `mergeSort`), then build the document. -/
def save_importance_ranking (e : Explorer) (page_importance : List (String × PIData)) :
    RankingDoc :=
  let ranked_pages := page_importance.mergeSort
    (fun a b => decide (b.2.score ≤ a.2.score))
  { ranking := ranked_pages.map (mkRankingEntry page_importance),
    total_pages := page_importance.length,
    base_domain := e.base_domain,
    topic_overview := pySetList ((page_importance.map (fun d => d.2.related_topics)).flatten) }

/-- `Explorer.explore`: run the crawl loop from the seeded frontier, then
write the ranking document — unless an uncaught `KeyError` (the
`crashed` flag) aborted the run, in which case the exception propagates
before `save_importance_ranking()` and no document exists (`none`). -/
def explore (e : Explorer) (env : Env) (sched : Nat → Nat) (fuel : Nat) :
    Option RankingDoc × ExploreState :=
  let final := exploreLoop e env sched fuel (initState e)
  (if final.crashed then none
   else some (save_importance_ranking e final.page_importance), final)

/-! ### Basic lemmas about the set and dict models -/

theorem mem_setAdd {l : List String} {u v : String} :
    u ∈ setAdd l v ↔ u ∈ l ∨ u = v := by
  by_cases h : v ∈ l
  · simp only [setAdd, if_pos h]
    constructor
    · exact Or.inl
    · rintro (h1 | rfl)
      · exact h1
      · exact h
  · simp [setAdd, if_neg h]

theorem setPop_fst_mem {k : Nat} {l : List String} (h : l ≠ []) :
    (setPop k l).1 ∈ l := by
  match l with
  | [] => exact absurd rfl h
  | x :: xs =>
    have hlt : k % (x :: xs).length < (x :: xs).length :=
      Nat.mod_lt _ (by simp)
    simp only [setPop, List.getD_eq_getElem?_getD, List.getElem?_eq_getElem hlt,
      Option.getD_some]
    exact List.getElem_mem hlt

theorem setPop_snd_eq {k : Nat} {l : List String} (h : l ≠ []) :
    (setPop k l).2 = l.eraseIdx (k % l.length) := by
  match l with
  | [] => exact absurd rfl h
  | x :: xs => rfl

theorem setPop_snd_subset {k : Nat} {l : List String} {u : String}
    (h : u ∈ (setPop k l).2) : u ∈ l := by
  match l with
  | [] => simp [setPop] at h
  | x :: xs =>
    simp only [setPop] at h
    exact (List.eraseIdx_sublist _ _).subset h

theorem dictInsert_keys {α : Type} (l : List (String × α)) (k : String) (v : α) :
    (dictInsert l k v).map Prod.fst = l.map Prod.fst ∨
    (dictInsert l k v).map Prod.fst = l.map Prod.fst ++ [k] := by
  unfold dictInsert
  split
  · left
    rw [List.map_map]
    refine List.map_congr_left ?_
    intro p _
    by_cases hp : p.1 == k
    · simp only [Function.comp_apply, if_pos hp]
      exact (eq_of_beq hp).symm
    · simp only [Function.comp_apply, if_neg hp]
  · right
    simp

theorem mem_keys_dictInsert {α : Type} (l : List (String × α)) (k : String) (v : α) :
    k ∈ (dictInsert l k v).map Prod.fst := by
  unfold dictInsert
  split
  · rename_i h
    simp only [List.any_eq_true] at h
    obtain ⟨p, hp, hpk⟩ := h
    rw [List.map_map]
    refine List.mem_map.mpr ⟨p, hp, ?_⟩
    simp only [Function.comp_apply, if_pos hpk]
  · simp

/-! ### Effect lemmas for the loop body -/

theorem visitUrl_visited (e : Explorer) (env : Env) (s : ExploreState) (u : String) :
    (visitUrl e env s u).visited = s.visited := by
  unfold visitUrl
  split
  · rfl
  · dsimp only
    split <;> rfl

theorem visitUrl_popped (e : Explorer) (env : Env) (s : ExploreState) (u : String) :
    (visitUrl e env s u).popped = s.popped := by
  unfold visitUrl
  split
  · rfl
  · dsimp only
    split <;> rfl

theorem visitUrl_assessed (e : Explorer) (env : Env) (s : ExploreState) (u : String) :
    (visitUrl e env s u).assessed = s.assessed ∨
    (visitUrl e env s u).assessed = s.assessed ++ [u] := by
  unfold visitUrl
  split
  · exact Or.inl rfl
  · dsimp only
    split <;> exact Or.inr rfl

theorem visitUrl_crashed (e : Explorer) (env : Env) (s : ExploreState) (u : String) :
    (visitUrl e env s u).crashed = s.crashed := by
  unfold visitUrl
  split
  · rfl
  · dsimp only
    split <;> rfl

theorem visitUrl_keys (e : Explorer) (env : Env) (s : ExploreState) (u : String) :
    (visitUrl e env s u).page_importance.map Prod.fst = s.page_importance.map Prod.fst ∨
    (visitUrl e env s u).page_importance.map Prod.fst
      = s.page_importance.map Prod.fst ++ [u] := by
  unfold visitUrl
  split
  · exact Or.inl rfl
  · dsimp only
    split
    · exact dictInsert_keys s.page_importance u _
    · exact Or.inl rfl

theorem exploreLoop_visited_extends (e : Explorer) (env : Env) (sched : Nat → Nat) :
    ∀ (fuel : Nat) (s : ExploreState),
      ∃ t, (exploreLoop e env sched fuel s).visited = s.visited ++ t := by
  intro fuel
  induction fuel with
  | zero => intro s; exact ⟨[], by simp [exploreLoop]⟩
  | succ fuel ih =>
    intro s
    rw [exploreLoop]
    split
    · exact ⟨[], by simp⟩
    · dsimp only
      split
      · exact ih _
      · split
        · exact ⟨[(setPop (sched s.popped.length) s.pending).1], rfl⟩
        · obtain ⟨t, ht⟩ := ih (visitUrl e env
            { s with
              pending := (setPop (sched s.popped.length) s.pending).2,
              popped := s.popped ++ [(setPop (sched s.popped.length) s.pending).1],
              visited := s.visited ++ [(setPop (sched s.popped.length) s.pending).1] }
            (setPop (sched s.popped.length) s.pending).1)
          refine ⟨(setPop (sched s.popped.length) s.pending).1 :: t, ?_⟩
          rw [ht, visitUrl_visited]
          simp

/-- The inductive invariant of the crawl loop: the visited set is
duplicate-free and within the page cap, and every popped, assessed or
kept URL has been visited. -/
def LoopInv (e : Explorer) (s : ExploreState) : Prop :=
  s.visited.Nodup ∧
  s.visited.length ≤ e.MAX_PAGES ∧
  (∀ u ∈ s.popped, u ∈ s.visited) ∧
  s.assessed.Nodup ∧
  (∀ u ∈ s.assessed, u ∈ s.visited) ∧
  (s.page_importance.map Prod.fst).Nodup ∧
  (∀ u ∈ s.page_importance.map Prod.fst, u ∈ s.visited)

theorem loopInv_visitUrl (e : Explorer) (env : Env) (s : ExploreState) (u : String)
    (hinv : LoopInv e s) (hu : u ∈ s.visited)
    (hua : u ∉ s.assessed) (huk : u ∉ s.page_importance.map Prod.fst) :
    LoopInv e (visitUrl e env s u) := by
  obtain ⟨h1, h2, h3, h4, h5, h6, h7⟩ := hinv
  refine ⟨?_, ?_, ?_, ?_, ?_, ?_, ?_⟩
  · rw [visitUrl_visited]
    exact h1
  · rw [visitUrl_visited]
    exact h2
  · rw [visitUrl_visited, visitUrl_popped]
    exact h3
  · rcases visitUrl_assessed e env s u with h | h <;> rw [h]
    · exact h4
    · simp only [List.nodup_append, List.nodup_cons, List.nodup_nil]
      exact ⟨h4, by simp, by simpa using hua⟩
  · rw [visitUrl_visited]
    rcases visitUrl_assessed e env s u with h | h <;> rw [h]
    · exact h5
    · intro v hv
      rcases List.mem_append.mp hv with hv | hv
      · exact h5 v hv
      · simp only [List.mem_singleton] at hv
        exact hv ▸ hu
  · rcases visitUrl_keys e env s u with h | h <;> rw [h]
    · exact h6
    · simp only [List.nodup_append, List.nodup_cons, List.nodup_nil]
      exact ⟨h6, by simp, by simpa using huk⟩
  · rw [visitUrl_visited]
    rcases visitUrl_keys e env s u with h | h <;> rw [h]
    · exact h7
    · intro v hv
      rcases List.mem_append.mp hv with hv | hv
      · exact h7 v hv
      · simp only [List.mem_singleton] at hv
        exact hv ▸ hu

theorem exploreLoop_inv (e : Explorer) (env : Env) (sched : Nat → Nat) :
    ∀ (fuel : Nat) (s : ExploreState), LoopInv e s →
      LoopInv e (exploreLoop e env sched fuel s) := by
  intro fuel
  induction fuel with
  | zero => intro s h; simpa [exploreLoop] using h
  | succ fuel ih =>
    intro s hinv
    obtain ⟨h1, h2, h3, h4, h5, h6, h7⟩ := hinv
    rw [exploreLoop]
    split
    · exact ⟨h1, h2, h3, h4, h5, h6, h7⟩
    · rename_i hguard
      dsimp only
      have hpne : s.pending ≠ [] := by
        intro hc
        exact hguard (Or.inl hc)
      have hlen : s.visited.length < e.MAX_PAGES := by
        by_contra hc
        exact hguard (Or.inr hc)
      set cur := (setPop (sched s.popped.length) s.pending).1 with hcur
      split
      · rename_i hvis
        refine ih _ ⟨h1, h2, ?_, h4, h5, h6, h7⟩
        intro v hv
        rcases List.mem_append.mp hv with hv | hv
        · exact h3 v hv
        · simp only [List.mem_singleton] at hv
          exact hv ▸ hvis
      · rename_i hnvis
        split
        · refine ⟨?_, ?_, ?_, ?_, ?_, h6, ?_⟩
          · simp only [List.nodup_append, List.nodup_cons, List.nodup_nil]
            exact ⟨h1, by simp, by simpa using hnvis⟩
          · simpa using hlen
          · intro v hv
            rcases List.mem_append.mp hv with hv | hv
            · exact List.mem_append_left _ (h3 v hv)
            · exact List.mem_append_right _ hv
          · simp only [List.nodup_append, List.nodup_cons, List.nodup_nil]
            refine ⟨h4, by simp, ?_⟩
            simpa using fun hc => hnvis (h5 cur hc)
          · intro v hv
            rcases List.mem_append.mp hv with hv | hv
            · exact List.mem_append_left _ (h5 v hv)
            · exact List.mem_append_right _ hv
          · intro v hv
            exact List.mem_append_left _ (h7 v hv)
        · refine ih _ (loopInv_visitUrl e env _ cur ⟨?_, ?_, ?_, h4, ?_, h6, ?_⟩ ?_ ?_ ?_)
          · simp only [List.nodup_append, List.nodup_cons, List.nodup_nil]
            exact ⟨h1, by simp, by simpa using hnvis⟩
          · simpa using hlen
          · intro v hv
            rcases List.mem_append.mp hv with hv | hv
            · exact List.mem_append_left _ (h3 v hv)
            · exact List.mem_append_right _ hv
          · intro v hv
            exact List.mem_append_left _ (h5 v hv)
          · intro v hv
            exact List.mem_append_left _ (h7 v hv)
          · exact List.mem_append_right _ (by simp)
          · intro hc
            exact hnvis (h5 cur hc)
          · intro hc
            exact hnvis (h7 cur hc)

/-- A duplicate-free list contained in another duplicate-free list is no
longer than it. -/
theorem nodup_subset_length {A B : List String} (hA : A.Nodup)
    (hAB : ∀ u ∈ A, u ∈ B) (hB : B.Nodup) : A.length ≤ B.length := by
  have hcard : A.toFinset.card ≤ B.toFinset.card := by
    apply Finset.card_le_card
    intro x hx
    exact List.mem_toFinset.mpr (hAB x (List.mem_toFinset.mp hx))
  rwa [List.toFinset_card_of_nodup hA, List.toFinset_card_of_nodup hB] at hcard

theorem mem_enqueue_links (e : Explorer) :
    ∀ (links : List RecLink) (pending : List String) (u : String),
      u ∈ enqueue_links e pending links ↔
        u ∈ pending ∨ ∃ rl, rl ∈ links ∧ link_allowed e rl = some u := by
  intro links
  induction links with
  | nil =>
    intro pending u
    simp [enqueue_links]
  | cons l ls ih =>
    intro pending u
    have hstep : enqueue_links e pending (l :: ls) =
        enqueue_links e (match link_allowed e l with
          | some v => setAdd pending v
          | none => pending) ls := rfl
    rw [hstep, ih]
    rcases hl : link_allowed e l with _ | v
    · simp only
      constructor
      · rintro (h | ⟨rl, hrl, hal⟩)
        · exact Or.inl h
        · exact Or.inr ⟨rl, List.mem_cons_of_mem _ hrl, hal⟩
      · rintro (h | ⟨rl, hrl, hal⟩)
        · exact Or.inl h
        · rcases List.mem_cons.mp hrl with rfl | hrl
          · exact absurd (hl ▸ hal) (by simp)
          · exact Or.inr ⟨rl, hrl, hal⟩
    · simp only [mem_setAdd]
      constructor
      · rintro ((h | rfl) | ⟨rl, hrl, hal⟩)
        · exact Or.inl h
        · exact Or.inr ⟨l, List.mem_cons_self _ _, hl⟩
        · exact Or.inr ⟨rl, List.mem_cons_of_mem _ hrl, hal⟩
      · rintro (h | ⟨rl, hrl, hal⟩)
        · exact Or.inl (Or.inl h)
        · rcases List.mem_cons.mp hrl with rfl | hrl
          · rw [hl] at hal
            exact Or.inl (Or.inr (by injection hal with h2; exact h2.symm))
          · exact Or.inr ⟨rl, hrl, hal⟩

/-! ### Concrete scenarios used by counterexamples and witnesses -/

/-- An explorer seeded at a path-scoped start URL (cap as in the source). -/
def exampleExplorer : Explorer :=
  { school := "demo", start_url := "http://host.edu/admissions/",
    base_domain := "host.edu", MAX_PAGES := 500 }

/-- An environment whose classifier always returns an unparsable response
and whose fetcher reaches only the start URL, a page with one markdown
link. -/
def envUnparsable : Env :=
  { fetch := fun u =>
      if u = "http://host.edu/admissions/" then
        [{ text := "[Home](a.html)", title := "T", links := [] }]
      else [],
    classify := fun _ => .unparsable "plain text answer" }

/-- A structured in-scope link of high priority. -/
def cexLinkT : Link :=
  { url := "http://host.edu/admissions/t.html", text := "t", type := "navigation",
    priority := mkRat 9 10, source := "nav", confidence := 1 }

/-- A structured link pointing back at the start URL. -/
def cexLinkS : Link :=
  { url := "http://host.edu/admissions/", text := "s", type := "navigation",
    priority := mkRat 9 10, source := "nav", confidence := 1 }

/-- An environment in which the second page recommends the start URL
again. -/
def envRevisit : Env :=
  { fetch := fun _ => [{ text := "", title := "T", links := [] }],
    classify := fun u =>
      if u = "http://host.edu/admissions/" then
        .parsed { importance_score := mkRat 9 10, explorer_tags := [], abstract := "",
                  recommended_links := [.structured cexLinkT], related_topics := [] }
      else
        .parsed { importance_score := mkRat 9 10, explorer_tags := [], abstract := "",
                  recommended_links := [.structured cexLinkS], related_topics := [] } }

/-! ### Claims -/

/-- C1 (counterexample): for the reachable start page with an unparsable
classifier response, `analyze_page` substitutes `importance_score = 0.8`,
not the zero assessment: the score differs from 0, the page is recorded
in `page_importance` (kept), and its regex-extracted markdown link is
enqueued into the frontier.  This refutes the claim that the page's
importance is treated as 0, that the page is not kept and that none of
its links are enqueued. -/
theorem C1_counterexample :
    (analyze_page exampleExplorer "[Home](a.html)"
        (.unparsable "plain text answer")).importance_score = mkRat 8 10 ∧
    ¬ (analyze_page exampleExplorer "[Home](a.html)"
        (.unparsable "plain text answer")).importance_score = 0 ∧
    (explore exampleExplorer envUnparsable (fun _ => 0) 1).2.page_importance.map Prod.fst
      = ["http://host.edu/admissions/"] ∧
    (explore exampleExplorer envUnparsable (fun _ => 0) 1).2.pending
      = ["http://host.edu/admissions/a.html"] := by
  decide

/-- C1 (amended): for every reachable page whose classifier response is
unparsable, the pipeline substitutes a fallback assessment with
`importanceScore = 0.8` (which clears the 0.3 keep threshold) whose
recommended links are the page's regex-extracted markdown links, so the
page is kept and those links are enqueued subject to the link filters;
the zero assessment (score 0, empty collections) is substituted only when
the classifier call raises an exception; in both cases the crawl loop
does not abort. -/
theorem C1_unparsable_fallback (e : Explorer) (text raw : String) :
    (analyze_page e text (.unparsable raw)).importance_score = mkRat 8 10 ∧
    (analyze_page e text (.unparsable raw)).recommended_links
      = (extracted_links e.start_url text).map RecLink.structured ∧
    analyze_page e text .err = zero_assessment ∧
    zero_assessment.importance_score = 0 :=
  ⟨rfl, rfl, rfl, rfl⟩

/-- C2 (counterexample): in a run where the second visited page recommends
the already-visited start URL, the enqueue step puts the start URL back
into pending, so after that frontier operation the visited and pending
sets intersect. -/
theorem C2_counterexample :
    "http://host.edu/admissions/"
        ∈ (explore exampleExplorer envRevisit (fun _ => 0) 2).2.pending ∧
    "http://host.edu/admissions/"
        ∈ (explore exampleExplorer envRevisit (fun _ => 0) 2).2.visited := by
  decide

/-- C2 (amended): the visited list only ever grows by appending, so its
size never decreases within a run, and visited and pending are disjoint
after seeding; but neither enqueuing nor popping restores disjointness
(enqueuing a discovered link does not consult the visited set, so at
observable points the pending set may contain visited URLs — the
counterexample run); an already-visited URL, when popped, is skipped
before assessment: that iteration removes it from pending and records
the pop, and changes nothing else — no fetch, no classification, no
keep, no enqueue. -/
theorem C2_frontier_growth (e : Explorer) (env : Env) (sched : Nat → Nat)
    (fuel : Nat) (s : ExploreState) :
    (∃ t, (exploreLoop e env sched fuel s).visited = s.visited ++ t) ∧
    s.visited.length ≤ (exploreLoop e env sched fuel s).visited.length ∧
    (∀ u ∈ (initState e).visited, u ∉ (initState e).pending) ∧
    (s.pending ≠ [] → s.visited.length < e.MAX_PAGES →
      (setPop (sched s.popped.length) s.pending).1 ∈ s.visited →
      exploreLoop e env sched 1 s =
        { s with
          pending := (setPop (sched s.popped.length) s.pending).2,
          popped := s.popped ++ [(setPop (sched s.popped.length) s.pending).1] }) := by
  obtain ⟨t, ht⟩ := exploreLoop_visited_extends e env sched fuel s
  refine ⟨⟨t, ht⟩, ?_, ?_, ?_⟩
  · rw [ht]
    simp
  · intro u hu
    simp [initState] at hu
  · intro hne hlen hvis
    rw [exploreLoop, if_neg]
    · dsimp only
      rw [if_pos hvis]
      rfl
    · intro hc
      rcases hc with hc | hc
      · exact hne hc
      · exact hc hlen

/-- C2 witness: the skip-before-assessment part of the amended claim,
exercised at the concrete state of the counterexample run — the state
after two iterations, whose pending set again holds the visited start
URL; the next iteration only removes it from pending and logs the pop. -/
theorem C2_frontier_growth_witness :
    exploreLoop exampleExplorer envRevisit (fun _ => 0) 1
        (explore exampleExplorer envRevisit (fun _ => 0) 2).2 =
      { (explore exampleExplorer envRevisit (fun _ => 0) 2).2 with
        pending :=
          (setPop 0 (explore exampleExplorer envRevisit (fun _ => 0) 2).2.pending).2,
        popped :=
          (explore exampleExplorer envRevisit (fun _ => 0) 2).2.popped ++
            [(setPop 0 (explore exampleExplorer envRevisit (fun _ => 0) 2).2.pending).1] } :=
  (C2_frontier_growth exampleExplorer envRevisit (fun _ => 0) 1
    (explore exampleExplorer envRevisit (fun _ => 0) 2).2).2.2.2
    (by decide) (by decide) (by decide)

/-- C3 (counterexample): the frontier is a Python `set` and `set.pop`
returns an implementation-defined element, so the popped URL is not a
function of the frontier contents: for the frontier built by seeding one
URL and then adding a second, both elements are admissible results of the
next pop.  No FIFO order, no priority order (the frontier stores no
priorities) and no configuration choice exists. -/
theorem C3_counterexample :
    setAdd (setAdd [] "http://host.edu/admissions/")
        "http://host.edu/admissions/faq.html"
      = ["http://host.edu/admissions/", "http://host.edu/admissions/faq.html"] ∧
    (setPop 0 ["http://host.edu/admissions/", "http://host.edu/admissions/faq.html"]).1
      = "http://host.edu/admissions/" ∧
    (setPop 1 ["http://host.edu/admissions/", "http://host.edu/admissions/faq.html"]).1
      = "http://host.edu/admissions/faq.html" ∧
    (setPop 0 ["http://host.edu/admissions/", "http://host.edu/admissions/faq.html"]).1
      ≠ (setPop 1 ["http://host.edu/admissions/",
          "http://host.edu/admissions/faq.html"]).1 := by
  decide

/-- C3 (amended): popping the next URL removes and returns one pending
URL, but in an arbitrary, implementation-defined order (Python
`set.pop`): the returned URL is a member of pending, and the new pending
set is the old one with exactly that occurrence removed; neither a FIFO
nor a priority discipline is implemented and no configuration selects
one. -/
theorem C3_pop_arbitrary (k : Nat) (l : List String) (h : l ≠ []) :
    (setPop k l).1 ∈ l ∧
    (setPop k l).2 = l.eraseIdx (k % l.length) ∧
    (setPop k l).2.length + 1 = l.length := by
  refine ⟨setPop_fst_mem h, setPop_snd_eq h, ?_⟩
  have hpos : 0 < l.length := List.length_pos.mpr h
  rw [setPop_snd_eq h, List.length_eraseIdx, if_pos (Nat.mod_lt _ hpos)]
  omega

/-- C3 witness: the amended pop contract evaluated on a concrete
two-element frontier. -/
theorem C3_pop_arbitrary_witness :
    (setPop 1 ["http://host.edu/a.html", "http://host.edu/b.html"]).1
        ∈ ["http://host.edu/a.html", "http://host.edu/b.html"] ∧
    (setPop 1 ["http://host.edu/a.html", "http://host.edu/b.html"]).2
        = ["http://host.edu/a.html", "http://host.edu/b.html"].eraseIdx (1 % 2) ∧
    (setPop 1 ["http://host.edu/a.html", "http://host.edu/b.html"]).2.length + 1
        = ["http://host.edu/a.html", "http://host.edu/b.html"].length :=
  C3_pop_arbitrary 1 ["http://host.edu/a.html", "http://host.edu/b.html"] (by decide)

/-- The seeded initial state satisfies the loop invariant. -/
theorem loopInv_initState (e : Explorer) : LoopInv e (initState e) := by
  simp [LoopInv, initState]

/-- C4 (confirmed): for an assessed page (fetch succeeded), the page is
kept — recorded in `page_importance` and its artifact persisted — if and
only if its importance score is strictly greater than 0.3, and the
frontier changes only by enqueuing the kept page's recommended links:
when the score does not clear the threshold the state is unchanged apart
from the assessment log, so no links are enqueued. -/
theorem C4_keep_iff (e : Explorer) (env : Env) (s : ExploreState) (u : String)
    (doc : Page) (docs : List Page) (hf : env.fetch u = doc :: docs)
    (hu : u ∉ s.page_importance.map Prod.fst) :
    ((u ∈ (visitUrl e env s u).page_importance.map Prod.fst) ↔
      (analyze_page e doc.text (env.classify u)).importance_score > mkRat 3 10) ∧
    ((analyze_page e doc.text (env.classify u)).importance_score > mkRat 3 10 →
      u ∈ (visitUrl e env s u).artifacts.map Prod.fst ∧
      (visitUrl e env s u).pending = enqueue_links e s.pending
        (analyze_page e doc.text (env.classify u)).recommended_links) ∧
    (¬ (analyze_page e doc.text (env.classify u)).importance_score > mkRat 3 10 →
      visitUrl e env s u = { s with assessed := s.assessed ++ [u] }) := by
  unfold visitUrl
  rw [hf]
  dsimp only
  by_cases hscore :
      (analyze_page e doc.text (env.classify u)).importance_score > mkRat 3 10
  · rw [if_pos hscore]
    unfold save_page
    dsimp only
    refine ⟨?_, fun _ => ⟨?_, rfl⟩, fun hc => absurd hscore hc⟩
    · constructor
      · intro _
        exact hscore
      · intro _
        exact mem_keys_dictInsert _ _ _
    · exact mem_keys_dictInsert _ _ _
  · rw [if_neg hscore]
    refine ⟨?_, fun hc => absurd hc hscore, fun _ => rfl⟩
    constructor
    · intro hmem
      exact absurd hmem hu
    · intro hc
      exact absurd hc hscore

/-- C4 witness: the keep decision evaluated in the unparsable-response
scenario, where the fallback score 0.8 clears the threshold. -/
theorem C4_keep_iff_witness :
    ("http://host.edu/admissions/"
        ∈ (visitUrl exampleExplorer envUnparsable (initState exampleExplorer)
            "http://host.edu/admissions/").page_importance.map Prod.fst) ↔
      (analyze_page exampleExplorer "[Home](a.html)"
        (envUnparsable.classify "http://host.edu/admissions/")).importance_score
        > mkRat 3 10 :=
  (C4_keep_iff exampleExplorer envUnparsable (initState exampleExplorer)
    "http://host.edu/admissions/"
    { text := "[Home](a.html)", title := "T", links := [] } []
    (by decide) (by decide)).1

/-- C5 (confirmed): the number of distinct URLs ever popped from the
frontier never exceeds `MAX_PAGES`; the cap binds the visited count, and
the kept count is at most the visited count, so fetched-but-rejected
pages also consume the budget. -/
theorem C5_page_cap (e : Explorer) (env : Env) (sched : Nat → Nat) (fuel : Nat) :
    ((explore e env sched fuel).2.popped.dedup.length ≤ e.MAX_PAGES) ∧
    ((explore e env sched fuel).2.visited.length ≤ e.MAX_PAGES) ∧
    ((explore e env sched fuel).2.page_importance.length
      ≤ (explore e env sched fuel).2.visited.length) := by
  have hinv : LoopInv e (exploreLoop e env sched fuel (initState e)) :=
    exploreLoop_inv e env sched fuel (initState e) (loopInv_initState e)
  obtain ⟨h1, h2, h3, h4, h5, h6, h7⟩ := hinv
  refine ⟨?_, h2, ?_⟩
  · exact Nat.le_trans
      (nodup_subset_length (List.nodup_dedup _)
        (fun v hv => h3 v (List.mem_dedup.mp hv)) h1) h2
  · have := nodup_subset_length h6 h7 h1
    simpa using this

/-- C7 (confirmed): within one crawl run no URL is ever assessed (fetched
and classified) twice: the log of assessed URLs is duplicate-free, and
every assessed URL was marked visited. -/
theorem C7_no_reassessment (e : Explorer) (env : Env) (sched : Nat → Nat)
    (fuel : Nat) :
    (explore e env sched fuel).2.assessed.Nodup ∧
    (∀ u ∈ (explore e env sched fuel).2.assessed,
      u ∈ (explore e env sched fuel).2.visited) := by
  have hinv : LoopInv e (exploreLoop e env sched fuel (initState e)) :=
    exploreLoop_inv e env sched fuel (initState e) (loopInv_initState e)
  exact ⟨hinv.2.2.2.1, hinv.2.2.2.2.1⟩

/-- C6 (confirmed): the ranking document is sorted by importance score in
descending order, and the sort is stable: two kept entries with equal
scores keep their accumulator (discovery) order — any equal-score pair
appearing in the accumulator in a given order appears in the ranking in
the same order. -/
theorem C6_ranking_sorted (e : Explorer) (pi : List (String × PIData)) :
    ((save_importance_ranking e pi).ranking.Pairwise
      (fun a b => b.importance_score ≤ a.importance_score)) ∧
    (∀ x y : String × PIData, x.2.score = y.2.score →
      List.Sublist [x, y] pi →
      List.Sublist [mkRankingEntry pi x, mkRankingEntry pi y]
        (save_importance_ranking e pi).ranking) := by
  have htrans : ∀ (a b c : String × PIData),
      decide (b.2.score ≤ a.2.score) = true →
      decide (c.2.score ≤ b.2.score) = true →
      decide (c.2.score ≤ a.2.score) = true := by
    intro a b c hab hbc
    simp only [decide_eq_true_eq] at *
    exact le_trans hbc hab
  have htotal : ∀ (a b : String × PIData),
      (decide (b.2.score ≤ a.2.score) || decide (a.2.score ≤ b.2.score)) = true := by
    intro a b
    simpa using le_total b.2.score a.2.score
  constructor
  · have hsorted := List.sorted_mergeSort htrans htotal pi
    unfold save_importance_ranking
    dsimp only
    refine List.Pairwise.map _ ?_ hsorted
    intro a b hab
    simpa [mkRankingEntry] using hab
  · intro x y hxy hsub
    have hpw : List.Pairwise
        (fun a b : String × PIData => decide (b.2.score ≤ a.2.score) = true) [x, y] := by
      refine List.Pairwise.cons ?_ (List.Pairwise.cons (by simp) List.Pairwise.nil)
      intro b hb
      rcases List.mem_cons.mp hb with rfl | hb
      · simp [hxy.ge]
      · simp at hb
    have := List.sublist_mergeSort htrans htotal hpw hsub
    unfold save_importance_ranking
    dsimp only
    exact this.map (mkRankingEntry pi)

/-- A concrete half-score importance summary. -/
def halfData : PIData := { score := mkRat 1 2, tags := [], related_topics := [] }

/-- A concrete two-entry accumulator whose entries share a score. -/
def tiePI : List (String × PIData) :=
  [("http://host.edu/admissions/", halfData),
   ("http://host.edu/admissions/t.html", halfData)]

/-- C6 witness: a two-entry accumulator with equal scores keeps its
discovery order in the ranking. -/
theorem C6_ranking_sorted_witness :
    List.Sublist
      [mkRankingEntry tiePI ("http://host.edu/admissions/", halfData),
       mkRankingEntry tiePI ("http://host.edu/admissions/t.html", halfData)]
      (save_importance_ranking exampleExplorer tiePI).ranking :=
  (C6_ranking_sorted exampleExplorer tiePI).2
    ("http://host.edu/admissions/", halfData)
    ("http://host.edu/admissions/t.html", halfData)
    rfl (List.Sublist.refl _)

/-- C8 (confirmed): the scope check accepts a candidate URL exactly when
it parses, its network location equals the base domain computed from the
start URL, and its path begins with the start URL's path; an unparsable
URL is rejected (the model's total function mirrors the `try/except`
that prevents any exception escaping, and the check reads no mutable
state). -/
theorem C8_scope_iff (e : Explorer) (sp : ParsedUrl)
    (hs : urlparse e.start_url = some sp) (hb : e.base_domain = sp.netloc)
    (u : String) :
    (is_valid_url e u = true ↔
      ∃ p, urlparse u = some p ∧ p.netloc = sp.netloc ∧
        pyStartsWith p.path sp.path = true) ∧
    (urlparse u = none → is_valid_url e u = false) := by
  constructor
  · constructor
    · intro h
      unfold is_valid_url at h
      rw [hs] at h
      rcases hp : urlparse u with _ | p
      · rw [hp] at h
        simp at h
      · rw [hp] at h
        dsimp only at h
        by_cases h1 : e.base_domain != p.netloc
        · rw [if_pos h1] at h
          simp at h
        · rw [if_neg h1] at h
          by_cases h2 : !(pyStartsWith p.path sp.path)
          · rw [if_pos h2] at h
            simp at h
          · refine ⟨p, rfl, ?_, ?_⟩
            · have heq : e.base_domain = p.netloc := by
                simpa using h1
              exact heq.symm.trans hb
            · simpa using h2
    · rintro ⟨p, hp, hnet, hpath⟩
      unfold is_valid_url
      rw [hs, hp]
      dsimp only
      rw [if_neg (by simp [hb, hnet]), if_neg (by simp [hpath])]
  · intro hnone
    unfold is_valid_url
    rw [hs, hnone]

/-- C8 witness: the scope check evaluated at the example explorer on an
in-scope candidate. -/
theorem C8_scope_iff_witness :
    is_valid_url exampleExplorer "http://host.edu/admissions/req.html" = true ↔
      ∃ p, urlparse "http://host.edu/admissions/req.html" = some p ∧
        p.netloc = "host.edu" ∧ pyStartsWith p.path "/admissions/" = true :=
  (C8_scope_iff exampleExplorer ⟨"host.edu", "/admissions/"⟩ (by decide) rfl
    "http://host.edu/admissions/req.html").1

theorem visitUrl_fetch_empty (e : Explorer) (env : Env) (s : ExploreState)
    (u : String) (h : env.fetch u = []) : visitUrl e env s u = s := by
  unfold visitUrl
  rw [h]

/-- When the start URL is unreachable, the frontier only ever contains
the start URL and nothing is kept. -/
theorem exploreLoop_start_unreachable (e : Explorer) (env : Env)
    (sched : Nat → Nat) (hf : env.fetch e.start_url = []) :
    ∀ (fuel : Nat) (s : ExploreState),
      (∀ u ∈ s.pending, u = e.start_url) → s.page_importance = [] →
      (exploreLoop e env sched fuel s).page_importance = [] := by
  intro fuel
  induction fuel with
  | zero =>
    intro s h1 h2
    simpa [exploreLoop] using h2
  | succ fuel ih =>
    intro s h1 h2
    rw [exploreLoop]
    split
    · exact h2
    · rename_i hguard
      dsimp only
      have hpne : s.pending ≠ [] := fun hc => hguard (Or.inl hc)
      have hcur : (setPop (sched s.popped.length) s.pending).1 = e.start_url :=
        h1 _ (setPop_fst_mem hpne)
      have hpend : ∀ u ∈ (setPop (sched s.popped.length) s.pending).2,
          u = e.start_url :=
        fun u hu => h1 u (setPop_snd_subset hu)
      split
      · exact ih _ hpend h2
      · have hfe : env.fetch (setPop (sched s.popped.length) s.pending).1 = [] := by
          rw [hcur]
          exact hf
        rw [if_neg (fun hc => hc.1 hfe), visitUrl_fetch_empty _ _ _ _ hfe]
        exact ih _ hpend h2

/-- The well-formed constructor is the special case of `parsedDict`
whose dict carries every field, and such a dict never raises. -/
theorem analyze_page_parsed_eq_parsedDict (e : Explorer) (text : String) (a : Analysis) :
    analyze_page e text (.parsed a) =
      analyze_page e text (.parsedDict
        ⟨some a.importance_score, some a.explorer_tags, some a.abstract,
         some a.recommended_links, some a.related_topics⟩) ∧
    classifyRaises (.parsedDict
        ⟨some a.importance_score, some a.explorer_tags, some a.abstract,
         some a.recommended_links, some a.related_topics⟩) = false := by
  constructor
  · rfl
  · simp [classifyRaises]

/-- The crawl loop never sets the crash flag when no classifier response
is a parsed dict missing the keys the loop reads. -/
theorem exploreLoop_no_crash (e : Explorer) (env : Env) (sched : Nat → Nat)
    (hok : ∀ u, classifyRaises (env.classify u) = false) :
    ∀ (fuel : Nat) (s : ExploreState), s.crashed = false →
      (exploreLoop e env sched fuel s).crashed = false := by
  intro fuel
  induction fuel with
  | zero =>
    intro s h
    simpa [exploreLoop] using h
  | succ fuel ih =>
    intro s hc
    rw [exploreLoop]
    split
    · exact hc
    · dsimp only
      split
      · exact ih _ hc
      · split
        · rename_i hcond
          simp [hok] at hcond
        · refine ih _ ?_
          rw [visitUrl_crashed]
          exact hc

/-- The environment whose fetcher reaches nothing and whose classifier
always raises inside `analyze_page` (caught there). -/
def emptyEnv : Env := { fetch := fun _ => [], classify := fun _ => .err }

/-- An environment whose classifier answers the reachable start page
with valid JSON that is an empty object: it parses, but the dict lacks
`importance_score`. -/
def envMalformed : Env :=
  { fetch := fun u =>
      if u = "http://host.edu/admissions/" then
        [{ text := "", title := "T", links := [] }]
      else [],
    classify := fun _ => .parsedDict ⟨none, none, none, none, none⟩ }

/-- C9 (counterexample): a reachable start page whose classifier response
is valid JSON without the expected keys makes the run raise an uncaught
`KeyError` at the keep test: the page was fetched and classified (it
"failed"), the run aborts, and no ranking document is written — refuting
"the final ranking document is always written at the end of a run, even
when some or all pages failed". -/
theorem C9_counterexample :
    (explore exampleExplorer envMalformed (fun _ => 0) 2).1 = none ∧
    (explore exampleExplorer envMalformed (fun _ => 0) 2).2.crashed = true ∧
    (explore exampleExplorer envMalformed (fun _ => 0) 2).2.assessed
      = ["http://host.edu/admissions/"] := by
  decide

/-- C9 (amended): the ranking document is written at the end of every
run in which no classifier response is a parsed JSON dict missing the
keys the loop reads (a missing `importance_score`, or — above the keep
threshold — a missing `explorer_tags` or `abstract`; such a response
raises an uncaught `KeyError` that aborts the run first).  Fetch
failures, unparsable responses and classifier exceptions never prevent
the document; in particular, when the fetch of the start URL fails, the
document exists, contains zero entries and records zero total pages. -/
theorem C9_ranking_written_no_malformed (e : Explorer) (env : Env) (sched : Nat → Nat)
    (fuel : Nat) (hok : ∀ u, classifyRaises (env.classify u) = false) :
    (explore e env sched fuel).1
      = some (save_importance_ranking e
          (explore e env sched fuel).2.page_importance) ∧
    (env.fetch e.start_url = [] →
      (explore e env sched fuel).1 = some (save_importance_ranking e []) ∧
      (save_importance_ranking e []).ranking = [] ∧
      (save_importance_ranking e []).total_pages = 0) := by
  have hnc : (exploreLoop e env sched fuel (initState e)).crashed = false :=
    exploreLoop_no_crash e env sched hok fuel (initState e) rfl
  constructor
  · unfold explore
    dsimp only
    rw [if_neg (by rw [hnc]; exact Bool.false_ne_true)]
  · intro hf
    have hpi := exploreLoop_start_unreachable e env sched hf fuel (initState e)
      (by simp [initState]) rfl
    refine ⟨?_, ?_, rfl⟩
    · unfold explore
      dsimp only
      rw [if_neg (by rw [hnc]; exact Bool.false_ne_true), hpi]
    · unfold save_importance_ranking
      simp

/-- C9 witness: a run whose fetcher reaches nothing (and whose classifier
only raises caught exceptions) still writes the ranking document — empty,
with zero total pages. -/
theorem C9_ranking_written_no_malformed_witness :
    (explore exampleExplorer emptyEnv (fun _ => 0) 5).1
      = some (save_importance_ranking exampleExplorer
          (explore exampleExplorer emptyEnv (fun _ => 0) 5).2.page_importance) ∧
    (emptyEnv.fetch exampleExplorer.start_url = [] →
      (explore exampleExplorer emptyEnv (fun _ => 0) 5).1
        = some (save_importance_ranking exampleExplorer []) ∧
      (save_importance_ranking exampleExplorer []).ranking = [] ∧
      (save_importance_ranking exampleExplorer []).total_pages = 0) :=
  C9_ranking_written_no_malformed exampleExplorer emptyEnv (fun _ => 0) 5
    (fun _ => rfl)

theorem is_valid_url_empty (e : Explorer) (hb : e.base_domain ≠ "") :
    is_valid_url e "" = false := by
  unfold is_valid_url
  have h0 : urlparse "" = some ⟨"", ""⟩ := rfl
  rw [h0]
  rcases hsp : urlparse e.start_url with _ | sp
  · rfl
  · dsimp only
    rw [if_pos (by simpa using hb)]

/-- C10 (confirmed): for a kept page, a structured (dict) recommended
link is enqueued exactly when it passes the scope check, its priority is
strictly greater than 0.3 and its kind is navigation, content or
application — failing links produce no effect — while a bare string link
is enqueued exactly when it passes the scope check alone; membership in
the frontier after the enqueue fold is exactly membership before or
acceptance of one of the page's links. -/
theorem C10_link_filter (e : Explorer) (hb : e.base_domain ≠ "") :
    (∀ l : Link, link_allowed e (.structured l) = some l.url ↔
      (is_valid_url e l.url = true ∧ l.priority > mkRat 3 10 ∧
        l.type ∈ ["navigation", "content", "application"])) ∧
    (∀ u : String, link_allowed e (.bare u) = some u ↔ is_valid_url e u = true) ∧
    (∀ (pending : List String) (links : List RecLink) (u : String),
      u ∈ enqueue_links e pending links ↔
        u ∈ pending ∨ ∃ rl, rl ∈ links ∧ link_allowed e rl = some u) := by
  refine ⟨?_, ?_, fun pending links u => mem_enqueue_links e links pending u⟩
  · intro l
    simp only [link_allowed]
    constructor
    · intro h
      by_cases hc : l.url ≠ "" ∧ l.priority > mkRat 3 10 ∧
          is_valid_url e l.url = true ∧
          l.type ∈ ["navigation", "content", "application"]
      · exact ⟨hc.2.2.1, hc.2.1, hc.2.2.2⟩
      · rw [if_neg hc] at h
        exact absurd h (by simp)
    · rintro ⟨hvalid, hprio, htype⟩
      have hne : l.url ≠ "" := by
        intro hc
        rw [hc] at hvalid
        rw [is_valid_url_empty e hb] at hvalid
        exact Bool.noConfusion hvalid
      rw [if_pos ⟨hne, hprio, hvalid, htype⟩]
  · intro u
    simp only [link_allowed]
    constructor
    · intro h
      by_cases hv : is_valid_url e u
      · exact hv
      · rw [if_neg hv] at h
        exact absurd h (by simp)
    · intro hv
      rw [if_pos hv]

/-- C10 witness: the filter evaluated at the example explorer on a
concrete in-scope navigation link. -/
theorem C10_link_filter_witness :
    link_allowed exampleExplorer (.structured cexLinkT) = some cexLinkT.url ↔
      (is_valid_url exampleExplorer cexLinkT.url = true ∧
        cexLinkT.priority > mkRat 3 10 ∧
        cexLinkT.type ∈ ["navigation", "content", "application"]) :=
  (C10_link_filter exampleExplorer (by decide)).1 cexLinkT

end Medex
